import Mathlib

/-!
Shallow embedding of `src/cinder/cmd/volume_usage_audit.py`.

The script resolves an audit time window (defaults from the last completed
audit period, optionally overridden by the parsed `--start_time` and
`--end_time` CLI options), validates `end > begin`, and then, for each of
three resource kinds (volumes, snapshots, backups), fetches the active
records overlapping the window and emits an "exists" usage notification per
record, plus synthetic `create.start`/`create.end` and
`delete.start`/`delete.end` pairs when `--send_actions` is set.

Modelling choices:
* Python `datetime` values are a structure of six wall-clock fields plus a
  flag recording whether `tzinfo=iso8601.UTC` has been attached by
  `replace`.  At every comparison site in the script both operands are in
  UTC (or both naive with the same provenance), so Python's instant
  comparison coincides with lexicographic comparison of the wall fields.
* The CLI overrides are modelled post-`strptime`: `Option Datetime`, `none`
  for an absent (or empty, hence falsy) option string.
* Every externally visible action - list query, notification emission
  attempt, error-level log - is an `Event`; a run produces an exit code and
  the list of events in program order.  Debug-level logs are not modelled.
* Whether a given `notify_about_*_usage` call raises is an oracle
  `fails : Kind → Nat → String → Bool` indexed by resource kind, record id
  and event suffix; the `try/except` structure of the script determines
  which later calls still run.
-/

namespace VolumeUsageAudit

/-- A Python `datetime.datetime` restricted to what the script touches:
six wall-clock fields (no microseconds: `%Y-%m-%d %H:%M:%S` parses none)
and whether a UTC `tzinfo` is attached. -/
structure Datetime where
  year : Nat
  month : Nat
  day : Nat
  hour : Nat
  minute : Nat
  second : Nat
  tzUtc : Bool
deriving DecidableEq, Repr

/-- `d.replace(tzinfo=iso8601.UTC)`: attach UTC, keep the wall clock. -/
def Datetime.setUtc (d : Datetime) : Datetime :=
  { d with tzUtc := true }

/-- Python `<` on two datetimes of the same (UTC) timezone: lexicographic
on the wall-clock fields. -/
def dtLtB (a b : Datetime) : Bool :=
  if a.year ≠ b.year then decide (a.year < b.year)
  else if a.month ≠ b.month then decide (a.month < b.month)
  else if a.day ≠ b.day then decide (a.day < b.day)
  else if a.hour ≠ b.hour then decide (a.hour < b.hour)
  else if a.minute ≠ b.minute then decide (a.minute < b.minute)
  else decide (a.second < b.second)

/-- Python `<=` on datetimes, via totality of the order: `a <= b ↔ ¬ b < a`. -/
def dtLeB (a b : Datetime) : Bool :=
  ! dtLtB b a

def pad2 (n : Nat) : String :=
  if n < 10 then "0" ++ toString n else toString n

def pad4 (n : Nat) : String :=
  if n < 10 then "000" ++ toString n
  else if n < 100 then "00" ++ toString n
  else if n < 1000 then "0" ++ toString n
  else toString n

/-- Python `str(d)`: `YYYY-MM-DD HH:MM:SS` with `+00:00` appended when a
UTC timezone is attached (microseconds are zero throughout the script). -/
def Datetime.str (d : Datetime) : String :=
  pad4 d.year ++ "-" ++ pad2 d.month ++ "-" ++ pad2 d.day ++ " " ++
    pad2 d.hour ++ ":" ++ pad2 d.minute ++ ":" ++ pad2 d.second ++
    (if d.tzUtc then "+00:00" else "")

/-- The three resource kinds iterated by `main`. -/
inductive Kind where
  | volume
  | snapshot
  | backup
deriving DecidableEq, Repr

/-- The `type_name` argument passed to the create/delete helpers. -/
def typeName : Kind → String
  | .volume => "volume"
  | .snapshot => "snapshot"
  | .backup => "backup"

/-- A fetched resource record, with the fields the script reads. -/
structure ObjRef where
  id : Nat
  project_id : Nat
  created_at : Datetime
  deleted_at : Option Datetime
deriving DecidableEq, Repr

/-- The `extra_usage_info` payload fragment. -/
structure ExtraInfo where
  audit_period_beginning : String
  audit_period_ending : String
deriving DecidableEq, Repr

/-- Externally visible actions of a run, in program order. -/
inductive Event where
  /-- One of the three `get_all_active_by_window` list queries. -/
  | fetch (k : Kind)
  /-- A `notify_about_*_usage` call that returned normally. -/
  | notifyOk (k : Kind) (objId : Nat) (suffix : String) (info : ExtraInfo)
  /-- A `notify_about_*_usage` call that raised. -/
  | notifyFail (k : Kind) (objId : Nat) (suffix : String) (info : ExtraInfo)
  /-- An error-level log line. -/
  | logError (msg : String)
deriving DecidableEq, Repr

/-- Oracle deciding whether a given notification call raises. -/
def FailOracle := Kind → Nat → String → Bool

/-- The event suffix of a notification attempt, `none` for other events. -/
def notifySuffix : Event → Option String
  | .notifyOk _ _ s _ => some s
  | .notifyFail _ _ s _ => some s
  | _ => none

/-- Is this event a notification attempt for kind `k`, record `i`,
suffix `s` (whether or not the call raised)? -/
def isNotifyAttempt (k : Kind) (i : Nat) (s : String) : Event → Bool
  | .notifyOk k2 i2 s2 _ => decide (k2 = k) && decide (i2 = i) && decide (s2 = s)
  | .notifyFail k2 i2 s2 _ => decide (k2 = k) && decide (i2 = i) && decide (s2 = s)
  | _ => false

/-- Is this event a fetch (list query)? -/
def isFetch : Event → Bool
  | .fetch _ => true
  | _ => false

/-- The parsed CLI configuration: `start_time` and `end_time` post-`strptime`
(`none` when the option is unset or empty), and the `send_actions` flag. -/
structure Config where
  start_time : Option Datetime
  end_time : Option Datetime
  send_actions : Bool
deriving Repr

/-- The bound substitution and UTC normalization inside `_time_error`:
each override, when present, replaces the corresponding default bound
independently; then both bounds get `replace(tzinfo=iso8601.UTC)`. -/
def resolveBounds (conf : Config) (b e : Datetime) : Datetime × Datetime :=
  let b := match conf.start_time with
    | some s => s
    | none => b
  let e := match conf.end_time with
    | some t => t
    | none => e
  (b.setUtc, e.setUtc)

/-- The message `_time_error` logs before exiting. -/
def timeErrorMsg (b e : Datetime) : String :=
  "The end time (" ++ e.str ++ ") must be after the start time (" ++
    b.str ++ ")."

/-- `_time_error`: apply the overrides, normalize to UTC, and either fail
(log the offending bounds, `sys.exit(-1)`) when `end <= begin`, or return
the validated pair. -/
def time_error (conf : Config) (b e : Datetime) :
    Except String (Datetime × Datetime) :=
  let p := resolveBounds conf b e
  if dtLeB p.2 p.1 then .error (timeErrorMsg p.1 p.2)
  else .ok p

/-- The per-kind error message of the `exists` helpers
(`_vol_notify_usage`, `_snap_notify_usage`, `_backup_notify_usage`). -/
def existsFailMsg : Kind → String
  | .volume => "Exists volume notification failed"
  | .snapshot => "Exists snapshot notification failed"
  | .backup => "Exists backups notification failed"

/-- The `exists` helpers (`_vol_notify_usage` and friends): one guarded
notification attempt; a raise is caught and logged, never propagated. -/
def notify_usage_exists (fails : FailOracle) (k : Kind) (r : ObjRef)
    (extra : ExtraInfo) : List Event :=
  if fails k r.id "exists" then
    [.notifyFail k r.id "exists" extra, .logError (existsFailMsg k)]
  else
    [.notifyOk k r.id "exists" extra]

def createFailMsg (k : Kind) : String :=
  "Create " ++ typeName k ++ " notification failed"

def deleteFailMsg (k : Kind) : String :=
  "Delete " ++ typeName k ++ " notification failed"

/-- `_create_action`: inside one `try`, build `local_extra_info` from the
record's `created_at` (both fields), then attempt `create.start` and
`create.end` in that order; a raise in either skips the rest of the block
and is caught and logged. -/
def create_action (fails : FailOracle) (k : Kind) (r : ObjRef) : List Event :=
  let info : ExtraInfo :=
    ⟨Datetime.str r.created_at, Datetime.str r.created_at⟩
  if fails k r.id "create.start" then
    [.notifyFail k r.id "create.start" info, .logError (createFailMsg k)]
  else if fails k r.id "create.end" then
    [.notifyOk k r.id "create.start" info,
     .notifyFail k r.id "create.end" info, .logError (createFailMsg k)]
  else
    [.notifyOk k r.id "create.start" info, .notifyOk k r.id "create.end" info]

/-- Python `str(obj_ref.deleted_at)` (`str(None) = "None"`). -/
def deletedStr (r : ObjRef) : String :=
  match r.deleted_at with
  | some d => d.str
  | none => "None"

/-- `_delete_action`: same shape as `_create_action` with the record's
`deleted_at` stringified into both payload fields. -/
def delete_action (fails : FailOracle) (k : Kind) (r : ObjRef) : List Event :=
  let info : ExtraInfo := ⟨deletedStr r, deletedStr r⟩
  if fails k r.id "delete.start" then
    [.notifyFail k r.id "delete.start" info, .logError (deleteFailMsg k)]
  else if fails k r.id "delete.end" then
    [.notifyOk k r.id "delete.start" info,
     .notifyFail k r.id "delete.end" info, .logError (deleteFailMsg k)]
  else
    [.notifyOk k r.id "delete.start" info, .notifyOk k r.id "delete.end" info]

/-- The guarded create branch of `_obj_ref_action`:
`if begin < obj_ref.created_at < end` (strict on both bounds). -/
def maybeCreate (fails : FailOracle) (k : Kind) (r : ObjRef)
    (b e : Datetime) : List Event :=
  if dtLtB b r.created_at && dtLtB r.created_at e then
    create_action fails k r
  else []

/-- The guarded delete branch of `_obj_ref_action`:
`if obj_ref.deleted_at and begin < obj_ref.deleted_at < end` (datetimes are
always truthy in Python, so truthiness of `deleted_at` is `isSome`). -/
def maybeDelete (fails : FailOracle) (k : Kind) (r : ObjRef)
    (b e : Datetime) : List Event :=
  match r.deleted_at with
  | some d => if dtLtB b d && dtLtB d e then delete_action fails k r else []
  | none => []

/-- `_obj_ref_action`: always run the `exists` helper; when `send_actions`
is set, run the guarded create branch and then the guarded delete branch. -/
def obj_ref_action (fails : FailOracle) (send_actions : Bool) (k : Kind)
    (r : ObjRef) (extra : ExtraInfo) (b e : Datetime) : List Event :=
  notify_usage_exists fails k r extra ++
    (if send_actions then
      maybeCreate fails k r b e ++ maybeDelete fails k r b e
    else [])

/-- One of the three per-kind loops of `main`. -/
def processKind (fails : FailOracle) (send_actions : Bool) (k : Kind)
    (refs : List ObjRef) (extra : ExtraInfo) (b e : Datetime) : List Event :=
  refs.flatMap (fun r => obj_ref_action fails send_actions k r extra b e)

/-- Everything `main` consumes: the parsed configuration, the default
bounds from `utils.last_completed_audit_period()`, the three record lists
the window queries would return, and the notification failure oracle. -/
structure RunInput where
  conf : Config
  defaultBegin : Datetime
  defaultEnd : Datetime
  volumes : List ObjRef
  snapshots : List ObjRef
  backups : List ObjRef
  fails : FailOracle

/-- Outcome of a run: the process exit code and the event trace. -/
structure RunResult where
  exitCode : Int
  events : List Event
deriving Repr

/-- `main`: resolve and validate the window (exiting `-1` on failure before
any fetch), build the window `extra_info`, then fetch and iterate each of
the three kinds in order. -/
def main (inp : RunInput) : RunResult :=
  match time_error inp.conf inp.defaultBegin inp.defaultEnd with
  | .error msg => ⟨-1, [.logError msg]⟩
  | .ok (b, e) =>
    let extra : ExtraInfo := ⟨b.str, e.str⟩
    let sa := inp.conf.send_actions
    ⟨0,
      [.fetch .volume] ++
        processKind inp.fails sa .volume inp.volumes extra b e ++
      [.fetch .snapshot] ++
        processKind inp.fails sa .snapshot inp.snapshots extra b e ++
      [.fetch .backup] ++
        processKind inp.fails sa .backup inp.backups extra b e⟩

/-! Concrete sample data, used to instantiate the theorems below. -/

/-- Oracle under which no notification call raises. -/
def noFail : FailOracle := fun _ _ _ => false

/-- Oracle under which exactly the calls with event suffix `s0` raise. -/
def failsOn (s0 : String) : FailOracle := fun _ _ s => decide (s = s0)

/-- A sample default window start from `last_completed_audit_period`. -/
def defB : Datetime := ⟨2020, 1, 1, 0, 0, 0, false⟩

/-- A sample default window end from `last_completed_audit_period`. -/
def defE : Datetime := ⟨2024, 4, 1, 0, 0, 0, false⟩

/-- `2024-03-01 00:00:00`, naive (as `strptime` returns it). -/
def dt0 : Datetime := ⟨2024, 3, 1, 0, 0, 0, false⟩

/-- `2024-03-01 01:00:00`, naive. -/
def dt1 : Datetime := ⟨2024, 3, 1, 1, 0, 0, false⟩

/-- The sample window start, UTC. -/
def winB : Datetime := dt0.setUtc

/-- The sample window end, UTC. -/
def winE : Datetime := dt1.setUtc

/-- The window `extra_info` for the sample window. -/
def winExtra : ExtraInfo := ⟨winB.str, winE.str⟩

/-- A deletion instant strictly inside the sample window. -/
def dDel : Datetime := ⟨2024, 3, 1, 0, 40, 0, true⟩

/-- A record created strictly inside the window, never deleted. -/
def vMid : ObjRef := ⟨1, 7, ⟨2024, 3, 1, 0, 30, 0, true⟩, none⟩

/-- A record created and deleted strictly inside the window. -/
def vBoth : ObjRef := ⟨2, 7, ⟨2024, 3, 1, 0, 10, 0, true⟩, some dDel⟩

/-- A record created and deleted exactly at the window start. -/
def vAtBegin : ObjRef := ⟨3, 7, winB, some winB⟩

/-- The spec's worked example input: sample window via overrides,
`send_actions=false`, one volume created mid-window, nothing failing. -/
def inpC7 : RunInput :=
  ⟨⟨some dt0, some dt1, false⟩, defB, defE, [vMid], [], [], noFail⟩

/-- An input whose overrides give `end < begin`. -/
def inpBadWin : RunInput :=
  ⟨⟨some dt1, some dt0, false⟩, defB, defE, [vMid], [], [], noFail⟩

/-- A valid-window input with records of all three kinds and every
`exists` notification raising. -/
def inpOkWin : RunInput :=
  ⟨⟨some dt0, some dt1, true⟩, defB, defE, [vMid], [vBoth], [vAtBegin],
    failsOn "exists"⟩

/-! ## Helper lemmas -/

theorem dtLtB_irrefl (a : Datetime) : dtLtB a a = false := by
  simp [dtLtB]

theorem suffix_of_mem_exists {fails : FailOracle} {k : Kind} {r : ObjRef}
    {x : ExtraInfo} {ev : Event} (h : ev ∈ notify_usage_exists fails k r x) :
    notifySuffix ev = some "exists" ∨ notifySuffix ev = none := by
  unfold notify_usage_exists at h
  cases hf : fails k r.id "exists"
  · simp [hf] at h
    exact Or.inl (by simp [h, notifySuffix])
  · simp [hf] at h
    rcases h with rfl | rfl
    · exact Or.inl rfl
    · exact Or.inr rfl

theorem suffix_of_mem_create {fails : FailOracle} {k : Kind} {r : ObjRef}
    {ev : Event} (h : ev ∈ create_action fails k r) :
    notifySuffix ev = some "create.start" ∨
      notifySuffix ev = some "create.end" ∨ notifySuffix ev = none := by
  unfold create_action at h
  cases h1 : fails k r.id "create.start"
  · cases h2 : fails k r.id "create.end"
    · simp [h1, h2] at h
      rcases h with rfl | rfl
      · exact Or.inl rfl
      · exact Or.inr (Or.inl rfl)
    · simp [h1, h2] at h
      rcases h with rfl | rfl | rfl
      · exact Or.inl rfl
      · exact Or.inr (Or.inl rfl)
      · exact Or.inr (Or.inr rfl)
  · simp [h1] at h
    rcases h with rfl | rfl
    · exact Or.inl rfl
    · exact Or.inr (Or.inr rfl)

theorem suffix_of_mem_delete {fails : FailOracle} {k : Kind} {r : ObjRef}
    {ev : Event} (h : ev ∈ delete_action fails k r) :
    notifySuffix ev = some "delete.start" ∨
      notifySuffix ev = some "delete.end" ∨ notifySuffix ev = none := by
  unfold delete_action at h
  cases h1 : fails k r.id "delete.start"
  · cases h2 : fails k r.id "delete.end"
    · simp [h1, h2] at h
      rcases h with rfl | rfl
      · exact Or.inl rfl
      · exact Or.inr (Or.inl rfl)
    · simp [h1, h2] at h
      rcases h with rfl | rfl | rfl
      · exact Or.inl rfl
      · exact Or.inr (Or.inl rfl)
      · exact Or.inr (Or.inr rfl)
  · simp [h1] at h
    rcases h with rfl | rfl
    · exact Or.inl rfl
    · exact Or.inr (Or.inr rfl)

theorem exists_attempt_any (fails : FailOracle) (sa : Bool) (k : Kind)
    (r : ObjRef) (x : ExtraInfo) (b e : Datetime) :
    (obj_ref_action fails sa k r x b e).any
      (isNotifyAttempt k r.id "exists") = true := by
  cases hf : fails k r.id "exists" <;>
    simp [obj_ref_action, notify_usage_exists, hf, isNotifyAttempt]

theorem exists_attempt_processKind (fails : FailOracle) (sa : Bool)
    (k : Kind) (refs : List ObjRef) (x : ExtraInfo) (b e : Datetime)
    (r : ObjRef) (hr : r ∈ refs) :
    (processKind fails sa k refs x b e).any
      (isNotifyAttempt k r.id "exists") = true := by
  rw [processKind, List.any_eq_true]
  obtain ⟨ev, hev, hp⟩ :=
    List.any_eq_true.1 (exists_attempt_any fails sa k r x b e)
  exact ⟨ev, List.mem_flatMap.2 ⟨r, hr, hev⟩, hp⟩

/-! ## Claims about the audit window -/

/-- C1: for every override pair whose parsed values satisfy `end <= begin`
after both bounds are normalized to UTC, `main` logs the offending bounds
and terminates with exit status `-1`; its trace holds no fetch query and no
notification attempt. -/
theorem invalid_window_exits_before_work (inp : RunInput) (s t : Datetime)
    (hs : inp.conf.start_time = some s) (ht : inp.conf.end_time = some t)
    (hle : dtLeB t.setUtc s.setUtc = true) :
    (main inp).exitCode = -1 ∧
    (main inp).events = [.logError (timeErrorMsg s.setUtc t.setUtc)] ∧
    (main inp).events.any isFetch = false ∧
    (main inp).events.any (fun ev => (notifySuffix ev).isSome) = false := by
  have hres : resolveBounds inp.conf inp.defaultBegin inp.defaultEnd =
      (s.setUtc, t.setUtc) := by
    simp [resolveBounds, hs, ht]
  have hte : time_error inp.conf inp.defaultBegin inp.defaultEnd =
      .error (timeErrorMsg s.setUtc t.setUtc) := by
    simp [time_error, hres, hle]
  refine ⟨?_, ?_, ?_, ?_⟩ <;> simp [main, hte, isFetch, notifySuffix]

/-- Witness for C1 at a concrete run whose overrides are reversed. -/
theorem invalid_window_exits_before_work_witness :
    inpBadWin.conf.start_time = some dt1 ∧
    inpBadWin.conf.end_time = some dt0 ∧
    dtLeB dt0.setUtc dt1.setUtc = true ∧
    (main inpBadWin).exitCode = -1 ∧
    (main inpBadWin).events =
      [.logError (timeErrorMsg dt1.setUtc dt0.setUtc)] ∧
    (main inpBadWin).events.any isFetch = false ∧
    (main inpBadWin).events.any (fun ev => (notifySuffix ev).isSome) = false := by
  have h := invalid_window_exits_before_work inpBadWin dt1 dt0 rfl rfl
    (by decide)
  exact ⟨rfl, rfl, by decide, h.1, h.2.1, h.2.2.1, h.2.2.2⟩

/-- C6: for every override pair whose parsed values satisfy `end > begin`
(after UTC normalization), the resolved window is exactly the override
values with UTC attached. -/
theorem overrides_define_window (conf : Config) (db de s t : Datetime)
    (hs : conf.start_time = some s) (ht : conf.end_time = some t)
    (hgt : dtLeB t.setUtc s.setUtc = false) :
    time_error conf db de = .ok (s.setUtc, t.setUtc) := by
  simp [time_error, resolveBounds, hs, ht, hgt]

/-- Witness for C6 at the worked-example overrides. -/
theorem overrides_define_window_witness :
    inpC7.conf.start_time = some dt0 ∧
    inpC7.conf.end_time = some dt1 ∧
    dtLeB dt1.setUtc dt0.setUtc = false ∧
    time_error inpC7.conf defB defE = .ok (dt0.setUtc, dt1.setUtc) := by
  have h := overrides_define_window inpC7.conf defB defE dt0 dt1 rfl rfl
    (by decide)
  exact ⟨rfl, rfl, by decide, h⟩

/-- C10: the two overrides substitute into the default bounds
independently of each other - a missing override leaves the default bound
in place - and `_time_error` then validates the mixed pair. -/
theorem overrides_independent (s t db de : Datetime) (sa : Bool)
    (conf : Config) :
    resolveBounds ⟨some s, none, sa⟩ db de = (s.setUtc, de.setUtc) ∧
    resolveBounds ⟨none, some t, sa⟩ db de = (db.setUtc, t.setUtc) ∧
    (dtLeB (resolveBounds conf db de).2 (resolveBounds conf db de).1 =
        false →
      time_error conf db de = .ok (resolveBounds conf db de)) ∧
    (dtLeB (resolveBounds conf db de).2 (resolveBounds conf db de).1 =
        true →
      time_error conf db de =
        .error (timeErrorMsg (resolveBounds conf db de).1
          (resolveBounds conf db de).2)) := by
  refine ⟨by simp [resolveBounds], by simp [resolveBounds],
    fun h => ?_, fun h => ?_⟩ <;> simp [time_error, h]

/-- Witness for C10: a start-only override keeps the default end bound. -/
theorem overrides_independent_witness :
    resolveBounds ⟨some dt0, none, false⟩ defB defE =
      (dt0.setUtc, defE.setUtc) ∧
    resolveBounds ⟨none, some dt1, false⟩ defB defE =
      (defB.setUtc, dt1.setUtc) ∧
    dtLeB (resolveBounds ⟨some dt0, none, false⟩ defB defE).2
      (resolveBounds ⟨some dt0, none, false⟩ defB defE).1 = false ∧
    time_error ⟨some dt0, none, false⟩ defB defE =
      .ok (resolveBounds ⟨some dt0, none, false⟩ defB defE) := by
  have h := overrides_independent dt0 dt1 defB defE false
    ⟨some dt0, none, false⟩
  exact ⟨h.1, h.2.1, by decide, h.2.2.1 (by decide)⟩

/-! ## Per-record action claims -/

theorem suffix_mem_obj_ref_action {fails : FailOracle} {sa : Bool}
    {k : Kind} {r : ObjRef} {x : ExtraInfo} {b e : Datetime} {ev : Event}
    (h : ev ∈ obj_ref_action fails sa k r x b e) :
    ev ∈ notify_usage_exists fails k r x ∨ ev ∈ maybeCreate fails k r b e ∨
      ev ∈ maybeDelete fails k r b e := by
  unfold obj_ref_action at h
  rcases List.mem_append.1 h with h | h
  · exact Or.inl h
  · cases sa
    · simp at h
    · simp only [if_pos] at h
      rcases List.mem_append.1 h with h | h
      · exact Or.inr (Or.inl h)
      · exact Or.inr (Or.inr h)

theorem suffix_of_mem_maybeCreate {fails : FailOracle} {k : Kind}
    {r : ObjRef} {b e : Datetime} {ev : Event}
    (h : ev ∈ maybeCreate fails k r b e) :
    notifySuffix ev = some "create.start" ∨
      notifySuffix ev = some "create.end" ∨ notifySuffix ev = none := by
  unfold maybeCreate at h
  split at h
  · exact suffix_of_mem_create h
  · simp at h

theorem suffix_of_mem_maybeDelete {fails : FailOracle} {k : Kind}
    {r : ObjRef} {b e : Datetime} {ev : Event}
    (h : ev ∈ maybeDelete fails k r b e) :
    notifySuffix ev = some "delete.start" ∨
      notifySuffix ev = some "delete.end" ∨ notifySuffix ev = none := by
  unfold maybeDelete at h
  cases hd : r.deleted_at
  · rw [hd] at h; simp at h
  · rename_i d2
    rw [hd] at h
    have h2 : ev ∈ (if (dtLtB b d2 && dtLtB d2 e) = true then
        delete_action fails k r else []) := h
    split at h2
    · exact suffix_of_mem_delete h2
    · simp at h2

/-- C2: synthetic action notifications use strict inequality on both
window bounds - a record created exactly at `begin` or `end` yields no
`create.start`/`create.end` attempt, one deleted exactly at `begin` or
`end` yields no `delete.start`/`delete.end` attempt, whatever the
`send_actions` flag; and a create attempt can only occur when
`begin < created_at < end` holds strictly. -/
theorem action_boundary_exclusion (fails : FailOracle) (sa : Bool)
    (k : Kind) (r : ObjRef) (x : ExtraInfo) (b e : Datetime) :
    ((r.created_at = b ∨ r.created_at = e) →
      "create.start" ∉
        (obj_ref_action fails sa k r x b e).filterMap notifySuffix ∧
      "create.end" ∉
        (obj_ref_action fails sa k r x b e).filterMap notifySuffix) ∧
    ((r.deleted_at = some b ∨ r.deleted_at = some e) →
      "delete.start" ∉
        (obj_ref_action fails sa k r x b e).filterMap notifySuffix ∧
      "delete.end" ∉
        (obj_ref_action fails sa k r x b e).filterMap notifySuffix) ∧
    (("create.start" ∈
        (obj_ref_action fails sa k r x b e).filterMap notifySuffix ∨
      "create.end" ∈
        (obj_ref_action fails sa k r x b e).filterMap notifySuffix) →
      (dtLtB b r.created_at && dtLtB r.created_at e) = true) := by
  have hnoc : (dtLtB b r.created_at && dtLtB r.created_at e) = false →
      ∀ s, s ≠ "exists" → s ≠ "delete.start" → s ≠ "delete.end" →
      s ∉ (obj_ref_action fails sa k r x b e).filterMap notifySuffix := by
    intro hguard s hs1 hs2 hs3 hmem
    obtain ⟨ev, hev, hsuf⟩ := List.mem_filterMap.1 hmem
    rcases suffix_mem_obj_ref_action hev with h | h | h
    · rcases suffix_of_mem_exists h with h2 | h2 <;> rw [h2] at hsuf <;>
        simp at hsuf
      exact hs1 hsuf.symm
    · rw [maybeCreate, hguard] at h; simp at h
    · rcases suffix_of_mem_maybeDelete h with h2 | h2 | h2 <;>
        rw [h2] at hsuf <;> simp at hsuf
      · exact hs2 hsuf.symm
      · exact hs3 hsuf.symm
  refine ⟨?_, ?_, ?_⟩
  · intro hc
    have hguard : (dtLtB b r.created_at && dtLtB r.created_at e) = false := by
      rcases hc with h | h <;> rw [h] <;> simp [dtLtB_irrefl]
    exact ⟨hnoc hguard _ (by decide) (by decide) (by decide),
      hnoc hguard _ (by decide) (by decide) (by decide)⟩
  · intro hd
    have hnd : maybeDelete fails k r b e = [] := by
      rcases hd with h | h <;> simp [maybeDelete, h, dtLtB_irrefl]
    have key : ∀ s, s ≠ "exists" → s ≠ "create.start" → s ≠ "create.end" →
        s ∉ (obj_ref_action fails sa k r x b e).filterMap notifySuffix := by
      intro s hs1 hs2 hs3 hmem
      obtain ⟨ev, hev, hsuf⟩ := List.mem_filterMap.1 hmem
      rcases suffix_mem_obj_ref_action hev with h | h | h
      · rcases suffix_of_mem_exists h with h2 | h2 <;> rw [h2] at hsuf <;>
          simp at hsuf
        exact hs1 hsuf.symm
      · rcases suffix_of_mem_maybeCreate h with h2 | h2 | h2 <;>
          rw [h2] at hsuf <;> simp at hsuf
        · exact hs2 hsuf.symm
        · exact hs3 hsuf.symm
      · rw [hnd] at h; simp at h
    exact ⟨key _ (by decide) (by decide) (by decide),
      key _ (by decide) (by decide) (by decide)⟩
  · intro hmem
    by_cases hguard : (dtLtB b r.created_at && dtLtB r.created_at e) = true
    · exact hguard
    · rw [Bool.not_eq_true] at hguard
      rcases hmem with hmem | hmem
      · exact absurd hmem (hnoc hguard _ (by decide) (by decide) (by decide))
      · exact absurd hmem (hnoc hguard _ (by decide) (by decide) (by decide))

/-- Witness for C2: a record created and deleted exactly at the window
start produces no synthetic action attempt even with `send_actions` on. -/
theorem action_boundary_exclusion_witness :
    vAtBegin.created_at = winB ∧ vAtBegin.deleted_at = some winB ∧
    "create.start" ∉
      (obj_ref_action noFail true .volume vAtBegin winExtra winB
        winE).filterMap notifySuffix ∧
    "create.end" ∉
      (obj_ref_action noFail true .volume vAtBegin winExtra winB
        winE).filterMap notifySuffix ∧
    "delete.start" ∉
      (obj_ref_action noFail true .volume vAtBegin winExtra winB
        winE).filterMap notifySuffix ∧
    "delete.end" ∉
      (obj_ref_action noFail true .volume vAtBegin winExtra winB
        winE).filterMap notifySuffix := by
  have h := action_boundary_exclusion noFail true .volume vAtBegin winExtra
    winB winE
  have hc := h.1 (Or.inl rfl)
  have hd := h.2.1 (Or.inl rfl)
  exact ⟨rfl, rfl, hc.1, hc.2, hd.1, hd.2⟩

/-- C3: for a record with `begin < created_at < end` and `send_actions`
on, the create branch runs: when neither call raises, a `create.start`
then a `create.end` notification are emitted in that order, both carrying
the record created timestamp stringified in both payload fields; a raise
in either call leaves an error log instead of propagating, and the loop
goes on to the remaining records. -/
theorem create_pair_emitted (fails : FailOracle) (k : Kind) (r : ObjRef)
    (x : ExtraInfo) (b e : Datetime) (rest : List ObjRef)
    (h1 : dtLtB b r.created_at = true) (h2 : dtLtB r.created_at e = true) :
    obj_ref_action fails true k r x b e =
      notify_usage_exists fails k r x ++ create_action fails k r ++
        maybeDelete fails k r b e ∧
    (fails k r.id "create.start" = false →
      fails k r.id "create.end" = false →
      create_action fails k r =
        [.notifyOk k r.id "create.start"
          ⟨r.created_at.str, r.created_at.str⟩,
         .notifyOk k r.id "create.end"
          ⟨r.created_at.str, r.created_at.str⟩]) ∧
    ((fails k r.id "create.start" = true ∨
        fails k r.id "create.end" = true) →
      Event.logError (createFailMsg k) ∈ create_action fails k r) ∧
    processKind fails true k (r :: rest) x b e =
      obj_ref_action fails true k r x b e ++
        processKind fails true k rest x b e := by
  refine ⟨?_, ?_, ?_, ?_⟩
  · simp [obj_ref_action, maybeCreate, h1, h2, List.append_assoc]
  · intro hf1 hf2
    simp [create_action, hf1, hf2]
  · intro hf
    rcases hf with hf | hf
    · simp [create_action, hf]
    · cases hf1 : fails k r.id "create.start" <;>
        simp [create_action, hf1, hf]
  · simp [processKind]

/-- Witness for C3 at a record created mid-window, with and without a
raising `create.start` call. -/
theorem create_pair_emitted_witness :
    dtLtB winB vBoth.created_at = true ∧
    dtLtB vBoth.created_at winE = true ∧
    create_action noFail .volume vBoth =
      [.notifyOk .volume 2 "create.start"
        ⟨vBoth.created_at.str, vBoth.created_at.str⟩,
       .notifyOk .volume 2 "create.end"
        ⟨vBoth.created_at.str, vBoth.created_at.str⟩] ∧
    obj_ref_action noFail true .volume vBoth winExtra winB winE =
      notify_usage_exists noFail .volume vBoth winExtra ++
        create_action noFail .volume vBoth ++
        maybeDelete noFail .volume vBoth winB winE ∧
    Event.logError (createFailMsg .volume) ∈
      create_action (failsOn "create.start") .volume vBoth ∧
    processKind noFail true .volume (vBoth :: [vMid]) winExtra winB winE =
      obj_ref_action noFail true .volume vBoth winExtra winB winE ++
        processKind noFail true .volume [vMid] winExtra winB winE := by
  have h := create_pair_emitted noFail .volume vBoth winExtra winB winE
    [vMid] (by decide) (by decide)
  have h2 := create_pair_emitted (failsOn "create.start") .volume vBoth
    winExtra winB winE [vMid] (by decide) (by decide)
  exact ⟨by decide, by decide, h.2.1 rfl rfl, h.1,
    h2.2.2.1 (Or.inl (by decide)), h.2.2.2⟩

/-- C4: with `send_actions` on, a delete attempt occurs exactly when
`deleted_at` is set and lies strictly inside the window; in that case,
when neither call raises, the `delete.start` then `delete.end` pair is
emitted with the record deleted timestamp stringified in both payload
fields, and a raise in either call is caught and logged. -/
theorem delete_pair_iff (fails : FailOracle) (k : Kind) (r : ObjRef)
    (x : ExtraInfo) (b e : Datetime) (d : Datetime) :
    ((∃ ev ∈ obj_ref_action fails true k r x b e,
        notifySuffix ev = some "delete.start" ∨
          notifySuffix ev = some "delete.end") ↔
      (∃ d2, r.deleted_at = some d2 ∧ (dtLtB b d2 && dtLtB d2 e) = true)) ∧
    (r.deleted_at = some d → (dtLtB b d && dtLtB d e) = true →
      fails k r.id "delete.start" = false →
      fails k r.id "delete.end" = false →
      delete_action fails k r =
        [.notifyOk k r.id "delete.start" ⟨d.str, d.str⟩,
         .notifyOk k r.id "delete.end" ⟨d.str, d.str⟩] ∧
      obj_ref_action fails true k r x b e =
        notify_usage_exists fails k r x ++ maybeCreate fails k r b e ++
          delete_action fails k r) ∧
    (r.deleted_at = some d → (dtLtB b d && dtLtB d e) = true →
      (fails k r.id "delete.start" = true ∨
        fails k r.id "delete.end" = true) →
      Event.logError (deleteFailMsg k) ∈
        obj_ref_action fails true k r x b e) := by
  refine ⟨⟨?_, ?_⟩, ?_, ?_⟩
  · rintro ⟨ev, hev, hsuf⟩
    rcases suffix_mem_obj_ref_action hev with h | h | h
    · rcases suffix_of_mem_exists h with h2 | h2 <;> rw [h2] at hsuf <;>
        simp at hsuf
    · rcases suffix_of_mem_maybeCreate h with h2 | h2 | h2 <;>
        rw [h2] at hsuf <;> simp at hsuf
    · rw [maybeDelete] at h
      cases hd : r.deleted_at
      · rw [hd] at h; simp at h
      · rename_i d2
        rw [hd] at h
        have h3 : ev ∈ (if (dtLtB b d2 && dtLtB d2 e) = true then
            delete_action fails k r else []) := h
        by_cases hg : (dtLtB b d2 && dtLtB d2 e) = true
        · exact ⟨d2, rfl, hg⟩
        · rw [if_neg hg] at h3
          simp at h3
  · rintro ⟨d2, hd, hg⟩
    cases hf : fails k r.id "delete.start"
    · exact ⟨.notifyOk k r.id "delete.start" ⟨deletedStr r, deletedStr r⟩,
        by
          cases hf2 : fails k r.id "delete.end" <;>
            simp [obj_ref_action, maybeDelete, hd, hg, delete_action, hf,
              hf2],
        Or.inl rfl⟩
    · exact ⟨.notifyFail k r.id "delete.start" ⟨deletedStr r, deletedStr r⟩,
        by simp [obj_ref_action, maybeDelete, hd, hg, delete_action, hf],
        Or.inl rfl⟩
  · intro hd hg hf1 hf2
    refine ⟨by simp [delete_action, hf1, hf2, deletedStr, hd], ?_⟩
    simp [obj_ref_action, maybeDelete, hd, hg, List.append_assoc]
  · intro hd hg hf
    have hmem : Event.logError (deleteFailMsg k) ∈ delete_action fails k r := by
      rcases hf with hf | hf
      · simp [delete_action, hf]
      · cases hf1 : fails k r.id "delete.start" <;>
          simp [delete_action, hf1, hf]
    refine List.mem_append.2 (Or.inr ?_)
    simp only [if_pos]
    refine List.mem_append.2 (Or.inr ?_)
    rw [maybeDelete, hd]
    show Event.logError (deleteFailMsg k) ∈
      (if (dtLtB b d && dtLtB d e) = true then delete_action fails k r
       else [])
    rw [if_pos hg]
    exact hmem

/-- Witness for C4 at a record deleted mid-window, with and without a
raising `delete.start` call. -/
theorem delete_pair_iff_witness :
    vBoth.deleted_at = some dDel ∧
    (dtLtB winB dDel && dtLtB dDel winE) = true ∧
    delete_action noFail .volume vBoth =
      [.notifyOk .volume 2 "delete.start" ⟨dDel.str, dDel.str⟩,
       .notifyOk .volume 2 "delete.end" ⟨dDel.str, dDel.str⟩] ∧
    obj_ref_action noFail true .volume vBoth winExtra winB winE =
      notify_usage_exists noFail .volume vBoth winExtra ++
        maybeCreate noFail .volume vBoth winB winE ++
        delete_action noFail .volume vBoth ∧
    Event.logError (deleteFailMsg .volume) ∈
      obj_ref_action (failsOn "delete.start") true .volume vBoth winExtra
        winB winE := by
  have h := delete_pair_iff noFail .volume vBoth winExtra winB winE dDel
  have h2 := delete_pair_iff (failsOn "delete.start") .volume vBoth
    winExtra winB winE dDel
  have hp := h.2.1 rfl (by decide) rfl rfl
  exact ⟨rfl, by decide, hp.1, hp.2, h2.2.2 rfl (by decide)
    (Or.inl (by decide))⟩

/-! ## Failure-isolation and worked-example claims -/

/-- C5: once the window validates, the run finishes with exit code `0`
and every fetched record of every kind gets its `exists` notification
attempted, whatever notification failures the oracle injects; only the
window-validation error is fatal among the notifier paths. -/
theorem notify_failures_isolated (inp : RunInput) (b e : Datetime)
    (r : ObjRef) (k : Kind)
    (h : time_error inp.conf inp.defaultBegin inp.defaultEnd = .ok (b, e))
    (hr : (k = .volume ∧ r ∈ inp.volumes) ∨
      (k = .snapshot ∧ r ∈ inp.snapshots) ∨
      (k = .backup ∧ r ∈ inp.backups)) :
    (main inp).exitCode = 0 ∧
    (main inp).events.any (isNotifyAttempt k r.id "exists") = true := by
  have hev : (main inp).events =
      [.fetch .volume] ++
        processKind inp.fails inp.conf.send_actions .volume inp.volumes
          ⟨b.str, e.str⟩ b e ++
      [.fetch .snapshot] ++
        processKind inp.fails inp.conf.send_actions .snapshot
          inp.snapshots ⟨b.str, e.str⟩ b e ++
      [.fetch .backup] ++
        processKind inp.fails inp.conf.send_actions .backup inp.backups
          ⟨b.str, e.str⟩ b e := by
    simp [main, h]
  refine ⟨by simp [main, h], ?_⟩
  rw [hev]
  rcases hr with ⟨rfl, hr⟩ | ⟨rfl, hr⟩ | ⟨rfl, hr⟩
  · obtain ⟨ev, hmem, hatt⟩ := List.any_eq_true.1
      (exists_attempt_processKind inp.fails inp.conf.send_actions .volume
        inp.volumes ⟨b.str, e.str⟩ b e r hr)
    refine List.any_eq_true.2 ⟨ev, ?_, hatt⟩
    simp only [List.mem_append]
    tauto
  · obtain ⟨ev, hmem, hatt⟩ := List.any_eq_true.1
      (exists_attempt_processKind inp.fails inp.conf.send_actions
        .snapshot inp.snapshots ⟨b.str, e.str⟩ b e r hr)
    refine List.any_eq_true.2 ⟨ev, ?_, hatt⟩
    simp only [List.mem_append]
    tauto
  · obtain ⟨ev, hmem, hatt⟩ := List.any_eq_true.1
      (exists_attempt_processKind inp.fails inp.conf.send_actions .backup
        inp.backups ⟨b.str, e.str⟩ b e r hr)
    refine List.any_eq_true.2 ⟨ev, ?_, hatt⟩
    simp only [List.mem_append]
    tauto

/-- Witness for C5: with every `exists` call raising, the snapshot record
still gets its attempt and the run exits `0`. -/
theorem notify_failures_isolated_witness :
    time_error inpOkWin.conf inpOkWin.defaultBegin inpOkWin.defaultEnd =
      .ok (winB, winE) ∧
    vBoth ∈ inpOkWin.snapshots ∧
    (main inpOkWin).exitCode = 0 ∧
    (main inpOkWin).events.any
      (isNotifyAttempt .snapshot vBoth.id "exists") = true := by
  have h := notify_failures_isolated inpOkWin winB winE vBoth .snapshot
    rfl (Or.inr (Or.inl ⟨rfl, by decide⟩))
  exact ⟨rfl, by decide, h.1, h.2⟩

/-- C7: with `send_actions` off, a fetched record whose notification does
not raise receives exactly one notification - `exists`, with the window
bounds stringified as payload; on the worked example the run emits
exactly one notification, with `audit_period_beginning`
`2024-03-01 00:00:00+00:00` and `audit_period_ending`
`2024-03-01 01:00:00+00:00`. -/
theorem exists_only_without_send_actions (fails : FailOracle) (k : Kind)
    (r : ObjRef) (b e : Datetime)
    (hf : fails k r.id "exists" = false) :
    obj_ref_action fails false k r ⟨b.str, e.str⟩ b e =
      [.notifyOk k r.id "exists" ⟨b.str, e.str⟩] ∧
    (main inpC7).events =
      [.fetch .volume,
       .notifyOk .volume 1 "exists"
         ⟨"2024-03-01 00:00:00+00:00", "2024-03-01 01:00:00+00:00"⟩,
       .fetch .snapshot, .fetch .backup] ∧
    (main inpC7).exitCode = 0 := by
  refine ⟨?_, by decide, by decide⟩
  simp [obj_ref_action, notify_usage_exists, hf]

/-- Witness for C7 at the worked-example volume. -/
theorem exists_only_without_send_actions_witness :
    noFail .volume vMid.id "exists" = false ∧
    obj_ref_action noFail false .volume vMid ⟨winB.str, winE.str⟩ winB
      winE = [.notifyOk .volume 1 "exists" ⟨winB.str, winE.str⟩] ∧
    (main inpC7).events =
      [.fetch .volume,
       .notifyOk .volume 1 "exists"
         ⟨"2024-03-01 00:00:00+00:00", "2024-03-01 01:00:00+00:00"⟩,
       .fetch .snapshot, .fetch .backup] := by
  have h := exists_only_without_send_actions noFail .volume vMid winB winE
    rfl
  exact ⟨rfl, h.1, h.2.1⟩

/-- C8: a raise in the `exists` notification is caught inside the helper,
so the same record still gets its create attempt (and, when its
`deleted_at` lies strictly inside the window, its delete attempt). -/
theorem exists_failure_still_attempts_actions (fails : FailOracle)
    (k : Kind) (r : ObjRef) (x : ExtraInfo) (b e : Datetime) (d : Datetime)
    (hf : fails k r.id "exists" = true)
    (h1 : dtLtB b r.created_at = true) (h2 : dtLtB r.created_at e = true) :
    Event.logError (existsFailMsg k) ∈ obj_ref_action fails true k r x b e ∧
    (obj_ref_action fails true k r x b e).any
      (isNotifyAttempt k r.id "create.start") = true ∧
    (r.deleted_at = some d → (dtLtB b d && dtLtB d e) = true →
      (obj_ref_action fails true k r x b e).any
        (isNotifyAttempt k r.id "delete.start") = true) := by
  refine ⟨by simp [obj_ref_action, notify_usage_exists, hf], ?_, ?_⟩
  · cases hc : fails k r.id "create.start" <;>
      cases hce : fails k r.id "create.end" <;>
      simp [obj_ref_action, maybeCreate, h1, h2, create_action, hc, hce,
        notify_usage_exists, hf, isNotifyAttempt, List.any_append]
  · intro hd hg
    cases hds : fails k r.id "delete.start" <;>
      cases hde : fails k r.id "delete.end" <;>
      simp [obj_ref_action, maybeDelete, hd, hg, delete_action, hds, hde,
        notify_usage_exists, hf, isNotifyAttempt, List.any_append]

/-- Witness for C8: with every `exists` call raising, the mid-window
record still gets both synthetic attempts. -/
theorem exists_failure_still_attempts_actions_witness :
    failsOn "exists" .volume vBoth.id "exists" = true ∧
    dtLtB winB vBoth.created_at = true ∧
    dtLtB vBoth.created_at winE = true ∧
    Event.logError (existsFailMsg .volume) ∈
      obj_ref_action (failsOn "exists") true .volume vBoth winExtra winB
        winE ∧
    (obj_ref_action (failsOn "exists") true .volume vBoth winExtra winB
        winE).any (isNotifyAttempt .volume vBoth.id "create.start") =
      true ∧
    (obj_ref_action (failsOn "exists") true .volume vBoth winExtra winB
        winE).any (isNotifyAttempt .volume vBoth.id "delete.start") =
      true := by
  have h := exists_failure_still_attempts_actions (failsOn "exists")
    .volume vBoth winExtra winB winE dDel (by decide) (by decide)
    (by decide)
  exact ⟨by decide, by decide, by decide, h.1, h.2.1, h.2.2 rfl (by decide)⟩

/-- C9: the create pair and the delete pair sit in separate handlers - a
raise during `create.start` or `create.end` is caught and logged before
the delete guard is evaluated, so the same record still gets its delete
pair. -/
theorem create_failure_still_attempts_delete (fails : FailOracle)
    (k : Kind) (r : ObjRef) (x : ExtraInfo) (b e : Datetime) (d : Datetime)
    (hcf : fails k r.id "create.start" = true ∨
      fails k r.id "create.end" = true)
    (h1 : dtLtB b r.created_at = true) (h2 : dtLtB r.created_at e = true)
    (hd : r.deleted_at = some d) (hg : (dtLtB b d && dtLtB d e) = true) :
    Event.logError (createFailMsg k) ∈ obj_ref_action fails true k r x b e ∧
    (obj_ref_action fails true k r x b e).any
      (isNotifyAttempt k r.id "delete.start") = true ∧
    (fails k r.id "delete.start" = false →
      fails k r.id "delete.end" = false →
      delete_action fails k r =
        [.notifyOk k r.id "delete.start" ⟨d.str, d.str⟩,
         .notifyOk k r.id "delete.end" ⟨d.str, d.str⟩]) := by
  refine ⟨?_, ?_, ?_⟩
  · have hmem : Event.logError (createFailMsg k) ∈
        create_action fails k r := by
      rcases hcf with hf | hf
      · simp [create_action, hf]
      · cases hf1 : fails k r.id "create.start" <;>
          simp [create_action, hf1, hf]
    refine List.mem_append.2 (Or.inr ?_)
    simp only [if_pos]
    refine List.mem_append.2 (Or.inl ?_)
    rw [maybeCreate, h1, h2]
    simpa using hmem
  · cases hds : fails k r.id "delete.start" <;>
      cases hde : fails k r.id "delete.end" <;>
      cases hfe : fails k r.id "exists" <;>
      rcases hcf with hf | hf <;>
      cases hf1 : fails k r.id "create.start" <;>
      simp_all [obj_ref_action, maybeCreate, maybeDelete, h1, h2, hd, hg,
        create_action, delete_action, notify_usage_exists, isNotifyAttempt,
        List.any_append]
  · intro hf1 hf2
    simp [delete_action, hf1, hf2, deletedStr, hd]

/-- Witness for C9: with `create.start` raising, the mid-window record
still emits its full delete pair. -/
theorem create_failure_still_attempts_delete_witness :
    failsOn "create.start" .volume vBoth.id "create.start" = true ∧
    dtLtB winB vBoth.created_at = true ∧
    dtLtB vBoth.created_at winE = true ∧
    vBoth.deleted_at = some dDel ∧
    (dtLtB winB dDel && dtLtB dDel winE) = true ∧
    Event.logError (createFailMsg .volume) ∈
      obj_ref_action (failsOn "create.start") true .volume vBoth winExtra
        winB winE ∧
    (obj_ref_action (failsOn "create.start") true .volume vBoth winExtra
        winB winE).any (isNotifyAttempt .volume vBoth.id "delete.start") =
      true ∧
    delete_action (failsOn "create.start") .volume vBoth =
      [.notifyOk .volume 2 "delete.start" ⟨dDel.str, dDel.str⟩,
       .notifyOk .volume 2 "delete.end" ⟨dDel.str, dDel.str⟩] := by
  have h := create_failure_still_attempts_delete (failsOn "create.start")
    .volume vBoth winExtra winB winE dDel (Or.inl (by decide)) (by decide)
    (by decide) rfl (by decide)
  exact ⟨by decide, by decide, by decide, rfl, by decide, h.1, h.2.1,
    h.2.2 (by decide) (by decide)⟩

end VolumeUsageAudit
